import Mathlib

/-!
Verification of the PVfit single-diode-equation (SDE) solver core
(`pvfit/modeling/dc/single_diode/equation/simulation.py` and
`pvfit/modeling/dc/common.py`) against its natural-language specification.

Embedding conventions.
* Numeric scalars are exact rationals `ℚ`.  The transcendental maps
  `numpy.exp` / `numpy.log` have no exact computable counterpart, so every
  definition is parametrised by functions `E : ℚ → ℚ` (for `numpy.exp`) and
  `L : ℚ → ℚ` (for `numpy.log` on its domain of positive arguments); all
  structural theorems hold for every choice of `E` and `L`.
* `numpy.expm1 x` computes `exp x - 1`; in exact arithmetic this is `E x - 1`.
* `numpy.log` of a non-positive argument is not an error in the source:
  numpy emits a RuntimeWarning and returns a non-finite value (nan for a
  negative argument, -inf for zero) and the computation proceeds into the
  solver.  Exact rationals have no non-finite values, so the exact embedding
  marks that boundary of its domain with the spec's `DomainError` value; the
  code-faithful behavior beyond the boundary — nan propagating through the
  iteration — is modelled separately over `FloatV` (IEEE-754-style values)
  for the negative-argument case.
* A broadcast batch is a list of already-broadcast elements; per the spec,
  batch evaluation is elementwise ("every element is solved independently and
  simultaneously"), and the source checks the convergence flags of the whole
  batch after the vectorized solve.
* `scipy.optimize.newton` (external library) is modelled per element after its
  scalar semantics: at each of at most `maxiter` iterations the residual is
  evaluated (an exact zero terminates with success, as in scipy); a zero
  derivative terminates without convergence; otherwise a Newton step — or,
  when a second-derivative function is supplied, the guarded Halley step
  `step / (1 - adj)` with `adj = step * f'' / f' / 2` applied only when
  `|adj| < 1` — is taken, and a step of magnitude at most `tol` terminates
  with success.  Failure to converge is the spec's `ConvergenceError`
  (surfaced in the source through the convergence check after the solve).
-/

/-- The two failure kinds of the spec's error-handling design (section 7).
`ConvergenceError` is the failure the source raises at its post-solve
convergence check.  `DomainError` exists only in the spec: the source never
raises it — the exact embedding uses this value to mark an initial condition
that leaves the exact-arithmetic domain, where the source merely warns,
computes a non-finite value and continues (see `V_at_I_ieee`). -/
inductive SolverError where
  | ConvergenceError : SolverError
  | DomainError : SolverError
  deriving DecidableEq

/-- Boltzmann constant [J/K] (`pvfit.common.k_B_J_per_K`, value pinned by
`tests/common_test.py`). -/
def k_B_J_per_K : ℚ := 1.380649e-23

/-- Elementary charge [C] (`pvfit.common.q_C`, value pinned by
`tests/common_test.py`). -/
def q_C : ℚ := 1.602176634e-19

/-- Celsius to Kelvin conversion
(`scipy.constants.convert_temperature(·, "Celsius", "Kelvin")`). -/
def convert_temperature (T_degC : ℚ) : ℚ := T_degC + 273.15

/-- `pvfit.modeling.dc.common.get_scaled_thermal_voltage`. -/
def get_scaled_thermal_voltage (N_s T_degC : ℚ) : ℚ :=
  N_s * (k_B_J_per_K * convert_temperature T_degC / q_C)

/-- The five physical parameters plus two structural constants of the SDE
(one broadcast element of `ModelParameters`). -/
structure ModelParameters where
  N_s : ℚ
  T_degC : ℚ
  I_ph_A : ℚ
  I_rs_A : ℚ
  n : ℚ
  R_s_Ohm : ℚ
  G_p_S : ℚ
  deriving DecidableEq

/-- One paired current/voltage sample (`IVData`). -/
structure IVData where
  I_A : ℚ
  V_V : ℚ
  deriving DecidableEq

/-- Options forwarded to the iterative solver: convergence tolerance and
maximum iteration count. -/
structure NewtonOptions where
  tol : ℚ
  maxiter : Nat
  deriving DecidableEq

/-- Modelled from the spec: the default solver options of `NewtonOptions()`
(`pvfit.types`, not under `src/`) are the underlying root finder's fixed
documented defaults, tolerance `1.48e-8` and `50` iterations. -/
def defaultNewtonOptions : NewtonOptions := ⟨1.48e-8, 50⟩

/-- Exact-arithmetic rendering of `numpy.expm1`: `exp x - 1`. -/
def expm1 (E : ℚ → ℚ) (x : ℚ) : ℚ := E x - 1

/-- Exact-arithmetic rendering of `numpy.log`, defined for positive
arguments.  On a non-positive argument the source does not fail: numpy warns
and returns nan or -inf and the program continues (that behavior is modelled by
`numpy_log_ieee`); since `ℚ` cannot represent those values, the exact
embedding stops here with the spec's `DomainError` marker. -/
def numpy_log (L : ℚ → ℚ) (x : ℚ) : Except SolverError ℚ :=
  if x ≤ 0 then .error .DomainError else .ok (L x)

/-- The modified ideality factor `n_mod_V = n * get_scaled_thermal_voltage`
computed identically at several places in the source. -/
def n_mod_V (mp : ModelParameters) : ℚ :=
  mp.n * get_scaled_thermal_voltage mp.N_s mp.T_degC

/-- `I_sum_diode_anode_at_I_V`: the net current balance at the diode's anode
node for one element. -/
def I_sum_diode_anode_at_I_V (E : ℚ → ℚ) (iv : IVData) (mp : ModelParameters) : ℚ :=
  let V_diode_V := iv.V_V + iv.I_A * mp.R_s_Ohm
  mp.I_ph_A - mp.I_rs_A * expm1 E (V_diode_V / n_mod_V mp)
    - mp.G_p_S * V_diode_V - iv.I_A

/-- The plain Newton step `f(x) / f'(x)`. -/
def newtonStep (fx d : ℚ) : ℚ := fx / d

/-- The Halley-class step of the root finder: the Newton step divided by
`1 - adj` with `adj = step * f''(x) / f'(x) / 2`, applied only when
`|adj| < 1`. -/
def halleyStep (fx d fd2x : ℚ) : ℚ :=
  let ns := fx / d
  let adj := ns * fd2x / d / 2
  if |adj| < 1 then ns / (1 - adj) else ns

/-- Per-element iteration of the derivative-based root finder (see the module
comment): fuel is the remaining iteration budget; the Boolean reports
convergence. -/
def newtonIterate (f fp : ℚ → ℚ) (fp2 : Option (ℚ → ℚ)) (tol : ℚ) :
    Nat → ℚ → ℚ × Bool
  | 0, x => (x, false)
  | fuel + 1, x =>
    let fx := f x
    if fx = 0 then (x, true)
    else
      let d := fp x
      if d = 0 then (x, false)
      else
        let step := match fp2 with
          | none => newtonStep fx d
          | some g => halleyStep fx d (g x)
        let x1 := x - step
        if |x1 - x| ≤ tol then (x1, true)
        else newtonIterate f fp fp2 tol fuel x1

/-- Entry point of the per-element root finder with options. -/
def newtonSolve (f fp : ℚ → ℚ) (fp2 : Option (ℚ → ℚ)) (opts : NewtonOptions)
    (x0 : ℚ) : ℚ × Bool :=
  newtonIterate f fp fp2 opts.tol opts.maxiter x0

/-- The initial condition of `I_at_V`: the analytic zero-series-resistance
solution `I_ph_A - I_rs_A * expm1(V_V / n_mod_V) - G_p_S * V_V`. -/
def I_at_V_ic (E : ℚ → ℚ) (V_V : ℚ) (mp : ModelParameters) : ℚ :=
  mp.I_ph_A - mp.I_rs_A * expm1 E (V_V / n_mod_V mp) - mp.G_p_S * V_V

/-- One element of `I_at_V`: Halley-class solve of the anode current balance
in the current variable, started from `I_at_V_ic`, with the source's
closed-form first and second derivative closures. -/
def I_at_V_element (E : ℚ → ℚ) (opts : NewtonOptions) (V_V : ℚ)
    (mp : ModelParameters) : ℚ × Bool :=
  let nm := n_mod_V mp
  newtonSolve
    (fun I_A => I_sum_diode_anode_at_I_V E ⟨I_A, V_V⟩ mp)
    (fun I_A => -mp.I_rs_A * mp.R_s_Ohm / nm * E ((V_V + I_A * mp.R_s_Ohm) / nm)
      - mp.G_p_S * mp.R_s_Ohm - 1)
    (some fun I_A => -mp.I_rs_A * (mp.R_s_Ohm / nm) ^ 2
      * E ((V_V + I_A * mp.R_s_Ohm) / nm))
    opts (I_at_V_ic E V_V mp)

/-- `I_at_V` over a broadcast batch of (voltage, parameters) elements: solve
every element, then check the convergence flags of the whole batch; any
failure is the fatal `ConvergenceError`. -/
def I_at_V (E : ℚ → ℚ) (opts : NewtonOptions)
    (batch : List (ℚ × ModelParameters)) : Except SolverError (List ℚ) :=
  if (batch.map fun p => I_at_V_element E opts p.1 p.2).all fun r => r.2 then
    .ok ((batch.map fun p => I_at_V_element E opts p.1 p.2).map fun r => r.1)
  else .error .ConvergenceError

/-- Elementwise effectful map over a batch (the vectorized evaluation of one
stage; the first failing element's error is the one the call surfaces). -/
def mapE {α β : Type} (f : α → Except SolverError β) :
    List α → Except SolverError (List β)
  | [] => .ok []
  | a :: l =>
    match f a with
    | .error e => .error e
    | .ok b =>
      match mapE f l with
      | .error e => .error e
      | .ok bs => .ok (b :: bs)

/-- The initial condition of `V_at_I`: the zero-shunt-conductance solution
`n_mod_V * (log(I_ph_A + I_rs_A - I_A) - log(I_rs_A)) - I_A * R_s_Ohm`.
When a logarithm receives a non-positive argument the exact embedding stops
with the `DomainError` marker; the source instead computes a warned
non-finite value and proceeds into the solver (see `V_at_I_ic_ieee`). -/
def V_at_I_ic (L : ℚ → ℚ) (I_A : ℚ) (mp : ModelParameters) :
    Except SolverError ℚ :=
  match numpy_log L (mp.I_ph_A + mp.I_rs_A - I_A), numpy_log L mp.I_rs_A with
  | .error e, _ => .error e
  | .ok _, .error e => .error e
  | .ok a, .ok b => .ok (n_mod_V mp * (a - b) - I_A * mp.R_s_Ohm)

/-- One element of `V_at_I`'s Halley-class solve of the anode current balance
in the voltage variable, from a given initial condition, with the source's
closed-form derivative closures. -/
def V_at_I_element_solve (E : ℚ → ℚ) (opts : NewtonOptions) (I_A : ℚ)
    (mp : ModelParameters) (V_V_ic : ℚ) : ℚ × Bool :=
  let nm := n_mod_V mp
  newtonSolve
    (fun V_V => I_sum_diode_anode_at_I_V E ⟨I_A, V_V⟩ mp)
    (fun V_V => -mp.I_rs_A / nm * E ((V_V + I_A * mp.R_s_Ohm) / nm) - mp.G_p_S)
    (some fun V_V => -mp.I_rs_A / nm ^ 2 * E ((V_V + I_A * mp.R_s_Ohm) / nm))
    opts V_V_ic

/-- `V_at_I` over a broadcast batch of (current, parameters) elements: the
initial conditions of the whole batch are computed first (the `DomainError`
marker arises here when an element leaves the exact-arithmetic domain; in
the source that element is only a warned non-finite value that flows into
the solver — the code-faithful behavior is `V_at_I_ieee`), then every
element is solved and the convergence flags of the whole batch are
checked. -/
def V_at_I (E L : ℚ → ℚ) (opts : NewtonOptions)
    (batch : List (ℚ × ModelParameters)) : Except SolverError (List ℚ) :=
  match mapE (fun p => V_at_I_ic L p.1 p.2) batch with
  | .error e => .error e
  | .ok ics =>
    if ((batch.zip ics).map fun q =>
        V_at_I_element_solve E opts q.1.1 q.1.2 q.2).all fun r => r.2 then
      .ok (((batch.zip ics).map fun q =>
        V_at_I_element_solve E opts q.1.1 q.1.2 q.2).map fun r => r.1)
    else .error .ConvergenceError

/-- The closed-form first derivative `dI_dV_S` of terminal current with
respect to terminal voltage, as computed in `dI_dV_at_V` from the root-found
current. -/
def dI_dV_expr (E : ℚ → ℚ) (V_V I_A : ℚ) (mp : ModelParameters) : ℚ :=
  let nm := n_mod_V mp
  let expr1 := mp.I_rs_A / nm * E ((V_V + I_A * mp.R_s_Ohm) / nm) + mp.G_p_S ;
  -expr1 / (1 + mp.R_s_Ohm * expr1)

/-- `dI_dV_at_V` over a batch: root-find the current, then evaluate the
closed-form derivative; returns `(dI_dV_S, I_A)` per element. -/
def dI_dV_at_V (E : ℚ → ℚ) (opts : NewtonOptions)
    (batch : List (ℚ × ModelParameters)) :
    Except SolverError (List (ℚ × ℚ)) :=
  match I_at_V E opts batch with
  | .error e => .error e
  | .ok Is =>
    .ok ((batch.zip Is).map fun q => (dI_dV_expr E q.1.1 q.2 q.1.2, q.2))

/-- The closed-form `(d2I_dV2_S, dI_dV_S)` pair of `d2I_dV2_at_V`, with the
source's shared subexpressions `expr0 … expr4`. -/
def d2I_dV2_exprs (E : ℚ → ℚ) (V_V I_A : ℚ) (mp : ModelParameters) : ℚ × ℚ :=
  let nm := n_mod_V mp
  let expr0 := E ((V_V + I_A * mp.R_s_Ohm) / nm)
  let expr1 := mp.I_rs_A / nm
  let expr2 := expr1 * expr0
  let expr3 := expr2 + mp.G_p_S
  let expr4 := 1 + mp.R_s_Ohm * expr3
  let dI_dV_S := -expr3 / expr4 ;
  ((-expr2 / nm * (1 + dI_dV_S * mp.R_s_Ohm)) / expr4, dI_dV_S)

/-- `d2I_dV2_at_V` over a batch: root-find the current, then evaluate the
closed-form derivatives; returns `(d2I_dV2_S, dI_dV_S, I_A)` per element. -/
def d2I_dV2_at_V (E : ℚ → ℚ) (opts : NewtonOptions)
    (batch : List (ℚ × ModelParameters)) :
    Except SolverError (List (ℚ × ℚ × ℚ)) :=
  match I_at_V E opts batch with
  | .error e => .error e
  | .ok Is =>
    .ok ((batch.zip Is).map fun q =>
      ((d2I_dV2_exprs E q.1.1 q.2 q.1.2).1, (d2I_dV2_exprs E q.1.1 q.2 q.1.2).2, q.2))

/-- `dV_dI_at_I` over a batch: root-find the voltage, then evaluate the
closed-form reciprocal-slope formula `-1/expr1 - R_s_Ohm`. -/
def dV_dI_at_I (E L : ℚ → ℚ) (opts : NewtonOptions)
    (batch : List (ℚ × ModelParameters)) :
    Except SolverError (List (ℚ × ℚ)) :=
  match V_at_I E L opts batch with
  | .error e => .error e
  | .ok Vs =>
    .ok ((batch.zip Vs).map fun q =>
      let nm := n_mod_V q.1.2
      let expr1 := q.1.2.I_rs_A / nm * E ((q.2 + q.1.1 * q.1.2.R_s_Ohm) / nm)
        + q.1.2.G_p_S ;
      (-1 / expr1 - q.1.2.R_s_Ohm, q.2))

/-- `P_at_V` over a batch: terminal power `V_V * I_A` at the root-found
current; returns `(P_W, I_A)` per element. -/
def P_at_V (E : ℚ → ℚ) (opts : NewtonOptions)
    (batch : List (ℚ × ModelParameters)) :
    Except SolverError (List (ℚ × ℚ)) :=
  match I_at_V E opts batch with
  | .error e => .error e
  | .ok Is => .ok ((batch.zip Is).map fun q => (q.1.1 * q.2, q.2))

/-- One element of `I_at_V` with the convergence check applied, as seen by
the callers nested inside another solve (`dI_dV_at_V` within `P_mp`'s
closures): failure raises the fatal `ConvergenceError`. -/
def I_at_V_run (E : ℚ → ℚ) (opts : NewtonOptions) (V_V : ℚ)
    (mp : ModelParameters) : Except SolverError ℚ :=
  if (I_at_V_element E opts V_V mp).2 then .ok (I_at_V_element E opts V_V mp).1
  else .error .ConvergenceError

/-- One element of `dI_dV_at_V` as evaluated inside `P_mp`'s closures. -/
def dI_dV_at_V_run (E : ℚ → ℚ) (opts : NewtonOptions) (V_V : ℚ)
    (mp : ModelParameters) : Except SolverError (ℚ × ℚ) :=
  match I_at_V_run E opts V_V mp with
  | .error e => .error e
  | .ok I_A => .ok (dI_dV_expr E V_V I_A mp, I_A)

/-- One element of `d2I_dV2_at_V` as evaluated inside `P_mp`'s closures. -/
def d2I_dV2_at_V_run (E : ℚ → ℚ) (opts : NewtonOptions) (V_V : ℚ)
    (mp : ModelParameters) : Except SolverError (ℚ × ℚ × ℚ) :=
  match I_at_V_run E opts V_V mp with
  | .error e => .error e
  | .ok I_A =>
    .ok ((d2I_dV2_exprs E V_V I_A mp).1, (d2I_dV2_exprs E V_V I_A mp).2, I_A)

/-- The closure `dP_dV` of `P_mp`: `dI_dV_S * V_V + I_A`. -/
def dP_dV_run (E : ℚ → ℚ) (opts : NewtonOptions) (mp : ModelParameters)
    (V_V : ℚ) : Except SolverError ℚ :=
  match dI_dV_at_V_run E opts V_V mp with
  | .error e => .error e
  | .ok r => .ok (r.1 * V_V + r.2)

/-- The closure `d2P_dV2` of `P_mp`: `d2I_dV2_S_per_V * V_V + 2 * dI_dV_S`. -/
def d2P_dV2_run (E : ℚ → ℚ) (opts : NewtonOptions) (mp : ModelParameters)
    (V_V : ℚ) : Except SolverError ℚ :=
  match d2I_dV2_at_V_run E opts V_V mp with
  | .error e => .error e
  | .ok r => .ok (r.1 * V_V + 2 * r.2.1)

/-- Per-element root-finder iteration whose function and derivative closures
may themselves fail (they contain nested solves whose exceptions propagate
out of the iteration): same semantics as `newtonIterate` otherwise. -/
def newtonIterateM (f fp : ℚ → Except SolverError ℚ)
    (fp2 : Option (ℚ → Except SolverError ℚ)) (tol : ℚ) :
    Nat → ℚ → Except SolverError (ℚ × Bool)
  | 0, x => .ok (x, false)
  | fuel + 1, x =>
    match f x with
    | .error e => .error e
    | .ok fx =>
      if fx = 0 then .ok (x, true)
      else
        match fp x with
        | .error e => .error e
        | .ok d =>
          if d = 0 then .ok (x, false)
          else
            match fp2 with
            | none =>
              let x1 := x - newtonStep fx d
              if |x1 - x| ≤ tol then .ok (x1, true)
              else newtonIterateM f fp none tol fuel x1
            | some g =>
              match g x with
              | .error e => .error e
              | .ok gx =>
                let x1 := x - halleyStep fx d gx
                if |x1 - x| ≤ tol then .ok (x1, true)
                else newtonIterateM f fp (some g) tol fuel x1

/-- `P_mp` over a batch of parameter elements: compute `V_oc` via
`V_at_I(I=0)`, start from `3/4 * V_oc`, root-find `dP_dV = 0` by the solver
given `dP_dV` and `d2P_dV2` as the function and its first derivative (no
second-derivative function is passed: the update is the plain Newton one),
check the convergence flags of the whole batch, then evaluate `I_mp_A` and
`P_mp_W = I_mp_A * V_mp_V`; returns `(P_mp_W, I_mp_A, V_mp_V, V_oc_V)` per
element. -/
def P_mp (E L : ℚ → ℚ) (opts : NewtonOptions) (mps : List ModelParameters) :
    Except SolverError (List (ℚ × ℚ × ℚ × ℚ)) :=
  match V_at_I E L opts (mps.map fun mp => ((0 : ℚ), mp)) with
  | .error e => .error e
  | .ok V_oc_Vs =>
    match mapE (fun q => newtonIterateM (dP_dV_run E opts q.1)
        (d2P_dV2_run E opts q.1) none opts.tol opts.maxiter q.2)
        (mps.zip (V_oc_Vs.map fun v => 3 / 4 * v)) with
    | .error e => .error e
    | .ok rs =>
      if rs.all fun r => r.2 then
        match I_at_V E opts ((rs.map fun r => r.1).zip mps) with
        | .error e => .error e
        | .ok I_mp_As =>
          .ok (((I_mp_As.zip (rs.map fun r => r.1)).zip V_oc_Vs).map fun q =>
            (q.1.1 * q.1.2, q.1.1, q.1.2, q.2))
      else .error .ConvergenceError

/-- `FF` over a batch: `I_sc_A` via `I_at_V(V=0)`, then `P_mp`, then the
fill factor `P_mp_W / (I_sc_A * V_oc_V)` elementwise, with the not-a-number
sentinel (`none`) wherever the denominator is zero
(`numpy.where(denominator != 0, P_mp_W / denominator, numpy.nan)`); returns
`(FF, I_sc_A, I_mp_A, P_mp_W, V_mp_V, V_oc_V)` per element. -/
def FF (E L : ℚ → ℚ) (opts : NewtonOptions) (mps : List ModelParameters) :
    Except SolverError (List (Option ℚ × ℚ × ℚ × ℚ × ℚ × ℚ)) :=
  match I_at_V E opts (mps.map fun mp => ((0 : ℚ), mp)) with
  | .error e => .error e
  | .ok I_sc_As =>
    match P_mp E L opts mps with
    | .error e => .error e
    | .ok pm =>
      .ok ((I_sc_As.zip pm).map fun q =>
        let denominator := q.1 * q.2.2.2.2 ;
        (if denominator ≠ 0 then some (q.2.1 / denominator) else none,
         q.1, q.2.2.1, q.2.1, q.2.2.2.1, q.2.2.2.2))

/-- `R_at_sc` over a batch: `(-1 / dI_dV_S, I_sc_A)` from `dI_dV_at_V` at
`V_V = 0`. -/
def R_at_sc (E : ℚ → ℚ) (opts : NewtonOptions) (mps : List ModelParameters) :
    Except SolverError (List (ℚ × ℚ)) :=
  match dI_dV_at_V E opts (mps.map fun mp => ((0 : ℚ), mp)) with
  | .error e => .error e
  | .ok ds => .ok (ds.map fun d => (-1 / d.1, d.2))

/-- `R_at_oc` over a batch: `V_oc_V` via `V_at_I(I=0)`, then
`(-1 / dI_dV_S, V_oc_V)` from `dI_dV_at_V` at `V_V = V_oc_V`. -/
def R_at_oc (E L : ℚ → ℚ) (opts : NewtonOptions) (mps : List ModelParameters) :
    Except SolverError (List (ℚ × ℚ)) :=
  match V_at_I E L opts (mps.map fun mp => ((0 : ℚ), mp)) with
  | .error e => .error e
  | .ok V_oc_Vs =>
    match dI_dV_at_V E opts (V_oc_Vs.zip mps) with
    | .error e => .error e
    | .ok ds => .ok ((ds.zip V_oc_Vs).map fun q => (-1 / q.1.1, q.2))

/-- The `IVCurveParametersArray` output record of `iv_curve_parameters`. -/
structure IVCurveParametersArray where
  I_sc_A : List ℚ
  R_sc_Ohm : List ℚ
  V_x_V : List ℚ
  I_x_A : List ℚ
  I_mp_A : List ℚ
  P_mp_W : List ℚ
  V_mp_V : List ℚ
  V_xx_V : List ℚ
  I_xx_A : List ℚ
  R_oc_Ohm : List ℚ
  V_oc_V : List ℚ
  FF : List (Option ℚ)
  deriving DecidableEq

/-- `iv_curve_parameters`: pure orchestration of `FF`, `R_at_sc`, the two
auxiliary currents at `V_x = V_oc/2` and `V_xx = (V_mp + V_oc)/2`, and
`R_at_oc`, assembled into the canonical record. -/
def iv_curve_parameters (E L : ℚ → ℚ) (opts : NewtonOptions)
    (mps : List ModelParameters) : Except SolverError IVCurveParametersArray :=
  match FF E L opts mps with
  | .error e => .error e
  | .ok ffs =>
    match R_at_sc E opts mps with
    | .error e => .error e
    | .ok rscs =>
      let V_oc_Vs := ffs.map fun t => t.2.2.2.2.2
      let V_x_Vs := V_oc_Vs.map fun v => v / 2
      match I_at_V E opts (V_x_Vs.zip mps) with
      | .error e => .error e
      | .ok I_x_As =>
        let V_mp_Vs := ffs.map fun t => t.2.2.2.2.1
        let V_xx_Vs := (V_mp_Vs.zip V_oc_Vs).map fun q => (q.1 + q.2) / 2
        match I_at_V E opts (V_xx_Vs.zip mps) with
        | .error e => .error e
        | .ok I_xx_As =>
          match R_at_oc E L opts mps with
          | .error e => .error e
          | .ok rocs =>
            .ok ⟨ffs.map fun t => t.2.1, rscs.map fun t => t.1,
              V_x_Vs, I_x_As, ffs.map fun t => t.2.2.1,
              ffs.map fun t => t.2.2.2.1, V_mp_Vs, V_xx_Vs, I_xx_As,
              rocs.map fun t => t.1, V_oc_Vs, ffs.map fun t => t.1⟩

/-- Comparator (from the spec's words, section 4.5): the Halley-class
third-order iteration "used elsewhere" applied to the root-find on
`dP_dV = 0` needs, besides the supplied first and second derivatives of
power, the second derivative of its objective; this is the closed-form third
derivative of power `d3I_dV3 * V_V + 3 * d2I_dV2` implied by the section 4.4
derivative curves.  It has no counterpart in the source. -/
def d3P_dV3_expr (E : ℚ → ℚ) (V_V I_A : ℚ) (mp : ModelParameters) : ℚ :=
  let nm := n_mod_V mp
  let expr0 := E ((V_V + I_A * mp.R_s_Ohm) / nm)
  let expr2 := mp.I_rs_A / nm * expr0
  let expr3 := expr2 + mp.G_p_S
  let expr4 := 1 + mp.R_s_Ohm * expr3
  let dI_dV_S := -expr3 / expr4
  let u := 1 + dI_dV_S * mp.R_s_Ohm
  let d2I_dV2_S := -expr2 / nm * u / expr4
  let d3I_dV3_S := -(expr2 * u ^ 2 * expr4 + nm * mp.R_s_Ohm * expr2 * d2I_dV2_S * expr4
      - mp.R_s_Ohm * expr2 ^ 2 * u ^ 2) / (nm * expr4) ^ 2 ;
  d3I_dV3_S * V_V + 3 * d2I_dV2_S

/-- Comparator (from the spec's words): elementwise evaluation of
`d3P_dV3_expr` at the root-found current. -/
def d3P_dV3_run (E : ℚ → ℚ) (opts : NewtonOptions) (mp : ModelParameters)
    (V_V : ℚ) : Except SolverError ℚ :=
  match I_at_V_run E opts V_V mp with
  | .error e => .error e
  | .ok I_A => .ok (d3P_dV3_expr E V_V I_A mp)

/-- Comparator (from the spec's words, section 4.5): `P_mp` as the claim
describes it — `V_oc` via `V_at_I(I=0)`, initial guess `0.75 * V_oc`, then a
root-find on `dP_dV = 0` by the same Halley-class (third-order) iteration
used elsewhere, supplied with the closed-form first and second derivatives of
power. -/
def P_mp_claimed (E L : ℚ → ℚ) (opts : NewtonOptions)
    (mps : List ModelParameters) : Except SolverError (List (ℚ × ℚ × ℚ × ℚ)) :=
  match V_at_I E L opts (mps.map fun mp => ((0 : ℚ), mp)) with
  | .error e => .error e
  | .ok V_oc_Vs =>
    match mapE (fun q => newtonIterateM (dP_dV_run E opts q.1)
        (d2P_dV2_run E opts q.1) (some (d3P_dV3_run E opts q.1))
        opts.tol opts.maxiter q.2)
        (mps.zip (V_oc_Vs.map fun v => 0.75 * v)) with
    | .error e => .error e
    | .ok rs =>
      if rs.all fun r => r.2 then
        match I_at_V E opts ((rs.map fun r => r.1).zip mps) with
        | .error e => .error e
        | .ok I_mp_As =>
          .ok (((I_mp_As.zip (rs.map fun r => r.1)).zip V_oc_Vs).map fun q =>
            (q.1.1 * q.1.2, q.1.1, q.1.2, q.2))
      else .error .ConvergenceError

/-- The amended description of `P_mp`: `V_oc` via `V_at_I(I=0)`, initial
guess `0.75 * V_oc`, then a root-find on `dP_dV = 0` by a second-order Newton
iteration given the closed-form first and second derivatives of power as the
function and its first derivative (no second-derivative function), with the
strict all-elements convergence requirement, returning
`(P_mp_W, I_mp_A, V_mp_V, V_oc_V)`. -/
def P_mp_amended (E L : ℚ → ℚ) (opts : NewtonOptions)
    (mps : List ModelParameters) : Except SolverError (List (ℚ × ℚ × ℚ × ℚ)) :=
  match V_at_I E L opts (mps.map fun mp => ((0 : ℚ), mp)) with
  | .error e => .error e
  | .ok V_oc_Vs =>
    match mapE (fun q => newtonIterateM (dP_dV_run E opts q.1)
        (d2P_dV2_run E opts q.1) none opts.tol opts.maxiter q.2)
        (mps.zip (V_oc_Vs.map fun v => 0.75 * v)) with
    | .error e => .error e
    | .ok rs =>
      if rs.all fun r => r.2 then
        match I_at_V E opts ((rs.map fun r => r.1).zip mps) with
        | .error e => .error e
        | .ok I_mp_As =>
          .ok (((I_mp_As.zip (rs.map fun r => r.1)).zip V_oc_Vs).map fun q =>
            (q.1.1 * q.1.2, q.1.1, q.1.2, q.2))
      else .error .ConvergenceError

/-- Concrete stand-in for `numpy.exp` used by the witnesses: the constant 1
(structural theorems hold for every `E`). -/
def Eone : ℚ → ℚ := fun _ => 1

/-- Concrete stand-in for `numpy.log` used by the witnesses: the constant 0
(structural theorems hold for every `L`). -/
def Lzero : ℚ → ℚ := fun _ => 0

/-- Witness solver options: tight tolerance, a single iteration. -/
def optsW : NewtonOptions := ⟨1 / 10 ^ 8, 1⟩

/-- Witness solver options: loose tolerance 1, a single iteration. -/
def optsB : NewtonOptions := ⟨1, 1⟩

/-- Witness parameter element with `I_ph_A = 0` (degenerate but valid). -/
def mpZero : ModelParameters := ⟨1, 25, 0, 1, 1, 0, 0⟩

/-- A second record holding the same field values as `mpZero`. -/
def mpZero2 : ModelParameters := ⟨1, 25, 0, 1, 1, 0, 0⟩

/-- Witness parameter element with zero series resistance and unit shunt
conductance. -/
def mpStar : ModelParameters := ⟨1, 25, 1, 1, 1, 0, 1⟩

/-- Witness parameter element with unit series resistance and unit shunt
conductance. -/
def mpBad : ModelParameters := ⟨1, 25, 1, 1, 1, 1, 1⟩


/-- IEEE-754-style scalar for the code-faithful trace of `V_at_I` on an
out-of-domain input: `fin q` is a finite value and `nan` is not-a-number,
the result of `numpy.log` on a negative argument.  Per IEEE-754 (and numpy),
arithmetic absorbs `nan` and every comparison involving `nan` is false.
Finite division by exact zero (an infinity in IEEE-754) is outside this
two-valued model and is never relied on by the theorems below. -/
inductive FloatV where
  | fin : ℚ → FloatV
  | nan : FloatV
  deriving DecidableEq

/-- IEEE-style addition: `nan` absorbs. -/
def FloatV.add : FloatV → FloatV → FloatV
  | .fin a, .fin b => .fin (a + b)
  | _, _ => .nan

/-- IEEE-style subtraction: `nan` absorbs. -/
def FloatV.sub : FloatV → FloatV → FloatV
  | .fin a, .fin b => .fin (a - b)
  | _, _ => .nan

/-- IEEE-style multiplication: `nan` absorbs. -/
def FloatV.mul : FloatV → FloatV → FloatV
  | .fin a, .fin b => .fin (a * b)
  | _, _ => .nan

/-- IEEE-style division: `nan` absorbs. -/
def FloatV.div : FloatV → FloatV → FloatV
  | .fin a, .fin b => .fin (a / b)
  | _, _ => .nan

/-- IEEE-style negation. -/
def FloatV.neg : FloatV → FloatV
  | .fin a => .fin (-a)
  | .nan => .nan

instance : Add FloatV := ⟨FloatV.add⟩

instance : Sub FloatV := ⟨FloatV.sub⟩

instance : Mul FloatV := ⟨FloatV.mul⟩

instance : Div FloatV := ⟨FloatV.div⟩

instance : Neg FloatV := ⟨FloatV.neg⟩

/-- IEEE-style equality-with-zero test: false for `nan`. -/
def FloatV.isZero : FloatV → Bool
  | .fin a => decide (a = 0)
  | .nan => false

/-- IEEE-style `|v| < c` test (the Halley-adjustment guard): false for
`nan`. -/
def FloatV.absLt (v : FloatV) (c : ℚ) : Bool :=
  match v with
  | .fin a => decide (|a| < c)
  | .nan => false

/-- IEEE-style `|v| ≤ c` test (the solver's step-size convergence check):
false for `nan`, so a `nan` iterate never counts as converged. -/
def FloatV.absLe (v : FloatV) (c : ℚ) : Bool :=
  match v with
  | .fin a => decide (|a| ≤ c)
  | .nan => false

/-- The exponential map lifted to IEEE values: `exp nan = nan`. -/
def FloatV.exp (E0 : ℚ → ℚ) : FloatV → FloatV
  | .fin a => .fin (E0 a)
  | .nan => .nan

/-- `numpy.log` as the source experiences it: a positive argument yields the
finite logarithm, a negative one yields `nan` together with only a
RuntimeWarning.  The argument-zero case actually yields `-inf`, which this
two-valued model folds into `nan`; the theorems below restrict themselves to
the strictly negative case. -/
def numpy_log_ieee (L0 : ℚ → ℚ) (x : ℚ) : FloatV :=
  if 0 < x then .fin (L0 x) else .nan

/-- The residual closure of `V_at_I` over IEEE values. -/
def I_sum_ieee (E0 : ℚ → ℚ) (I_A : ℚ) (mp : ModelParameters)
    (V : FloatV) : FloatV :=
  FloatV.fin mp.I_ph_A
    - FloatV.fin mp.I_rs_A
      * (FloatV.exp E0 ((V + FloatV.fin I_A * FloatV.fin mp.R_s_Ohm)
          / FloatV.fin (n_mod_V mp)) - FloatV.fin 1)
    - FloatV.fin mp.G_p_S * (V + FloatV.fin I_A * FloatV.fin mp.R_s_Ohm)
    - FloatV.fin I_A

/-- The first-derivative closure of `V_at_I` over IEEE values. -/
def dI_sum_dV_ieee (E0 : ℚ → ℚ) (I_A : ℚ) (mp : ModelParameters)
    (V : FloatV) : FloatV :=
  -FloatV.fin mp.I_rs_A / FloatV.fin (n_mod_V mp)
    * FloatV.exp E0 ((V + FloatV.fin I_A * FloatV.fin mp.R_s_Ohm)
        / FloatV.fin (n_mod_V mp))
    - FloatV.fin mp.G_p_S

/-- The second-derivative closure of `V_at_I` over IEEE values. -/
def d2I_sum_dV2_ieee (E0 : ℚ → ℚ) (I_A : ℚ) (mp : ModelParameters)
    (V : FloatV) : FloatV :=
  -FloatV.fin mp.I_rs_A / FloatV.fin (n_mod_V mp ^ 2)
    * FloatV.exp E0 ((V + FloatV.fin I_A * FloatV.fin mp.R_s_Ohm)
        / FloatV.fin (n_mod_V mp))

/-- The zero-shunt-conductance initial condition of `V_at_I` over IEEE
values: where the exact embedding stops with the `DomainError` marker, the
source's value is simply non-finite and flows onward. -/
def V_at_I_ic_ieee (L0 : ℚ → ℚ) (I_A : ℚ) (mp : ModelParameters) : FloatV :=
  FloatV.fin (n_mod_V mp)
      * (numpy_log_ieee L0 (mp.I_ph_A + mp.I_rs_A - I_A)
        - numpy_log_ieee L0 mp.I_rs_A)
    - FloatV.fin I_A * FloatV.fin mp.R_s_Ohm

/-- The per-element root-finder iteration over IEEE values: the same scalar
semantics as `newtonIterate` with the Halley adjustment, but with IEEE
comparisons — every test involving `nan` is false, so a `nan` iterate
neither terminates at the residual check nor ever satisfies the step-size
convergence test, and the budget is consumed iterating on `nan`. -/
def newtonIterateIEEE (f fp fp2 : FloatV → FloatV) (tol : ℚ) :
    Nat → FloatV → FloatV × Bool
  | 0, x => (x, false)
  | fuel + 1, x =>
    if (f x).isZero then (x, true)
    else if (fp x).isZero then (x, false)
    else
      let ns := f x / fp x ;
      let adj := ns * fp2 x / fp x / FloatV.fin 2 ;
      let x1 := x - (if adj.absLt 1 then ns / (FloatV.fin 1 - adj) else ns) ;
      if (x1 - x).absLe tol then (x1, true)
      else newtonIterateIEEE f fp fp2 tol fuel x1

/-- `V_at_I` over IEEE values — the code-faithful behavior on batches whose
initial conditions leave the exact-arithmetic domain: the initial conditions
are computed (a negative log argument gives `nan`, with only a warning in
the source), the solver then runs on them, and the only failure the call can
surface is the post-solve convergence check. -/
def V_at_I_ieee (E0 L0 : ℚ → ℚ) (opts : NewtonOptions)
    (batch : List (ℚ × ModelParameters)) : Except SolverError (List FloatV) :=
  if (batch.map fun p => newtonIterateIEEE (I_sum_ieee E0 p.1 p.2)
      (dI_sum_dV_ieee E0 p.1 p.2) (d2I_sum_dV2_ieee E0 p.1 p.2)
      opts.tol opts.maxiter (V_at_I_ic_ieee L0 p.1 p.2)).all (fun r => r.2) then
    .ok ((batch.map fun p => newtonIterateIEEE (I_sum_ieee E0 p.1 p.2)
      (dI_sum_dV_ieee E0 p.1 p.2) (d2I_sum_dV2_ieee E0 p.1 p.2)
      opts.tol opts.maxiter (V_at_I_ic_ieee L0 p.1 p.2)).map fun r => r.1)
  else .error .ConvergenceError

theorem mapE_ok_length {α β : Type} {f : α → Except SolverError β} :
    ∀ {l : List α} {l' : List β}, mapE f l = .ok l' → l'.length = l.length := by
  intro l
  induction l with
  | nil => intro l' h; simp only [mapE] at h; rw [← Except.ok.inj h]; rfl
  | cons a t ih =>
    intro l' h
    unfold mapE at h
    cases hfa : f a with
    | error e => rw [hfa] at h; exact absurd h (by simp)
    | ok b =>
      rw [hfa] at h
      cases hmt : mapE f t with
      | error e => rw [hmt] at h; exact absurd h (by simp)
      | ok bs =>
        rw [hmt] at h
        rw [← Except.ok.inj h]
        simp [ih hmt]

theorem mapE_error_eq {α β : Type} {f : α → Except SolverError β}
    {e0 : SolverError} (hall : ∀ a e, f a = .error e → e = e0) :
    ∀ {l : List α} {e : SolverError}, mapE f l = .error e → e = e0 := by
  intro l
  induction l with
  | nil => intro e h; exact absurd h (by simp [mapE])
  | cons a t ih =>
    intro e h
    unfold mapE at h
    cases hfa : f a with
    | error e1 => rw [hfa] at h; exact (Except.error.inj h) ▸ hall a e1 hfa
    | ok b =>
      rw [hfa] at h
      cases hmt : mapE f t with
      | error e1 => rw [hmt] at h; exact (Except.error.inj h) ▸ ih hmt
      | ok bs => rw [hmt] at h; exact absurd h (by simp)

theorem I_at_V_error_of_exists {E : ℚ → ℚ} {opts : NewtonOptions}
    {batch : List (ℚ × ModelParameters)}
    (h : ∃ p ∈ batch, (I_at_V_element E opts p.1 p.2).2 = false) :
    I_at_V E opts batch = .error .ConvergenceError := by
  obtain ⟨p, hp, hflag⟩ := h
  have hall : ¬ ((batch.map fun p => I_at_V_element E opts p.1 p.2).all
      fun r => r.2) = true := by
    intro hall
    have := List.all_eq_true.mp hall (I_at_V_element E opts p.1 p.2)
      (List.mem_map.mpr ⟨p, hp, rfl⟩)
    rw [hflag] at this
    exact Bool.false_ne_true this
  unfold I_at_V
  rw [if_neg hall]

theorem I_at_V_ok_of_all {E : ℚ → ℚ} {opts : NewtonOptions}
    {batch : List (ℚ × ModelParameters)}
    (h : ∀ p ∈ batch, (I_at_V_element E opts p.1 p.2).2 = true) :
    I_at_V E opts batch
      = .ok (batch.map fun p => (I_at_V_element E opts p.1 p.2).1) := by
  have hall : ((batch.map fun p => I_at_V_element E opts p.1 p.2).all
      fun r => r.2) = true :=
    List.all_eq_true.mpr fun r hr => by
      obtain ⟨p, hp, hpr⟩ := List.mem_map.mp hr
      rw [← hpr]
      exact h p hp
  unfold I_at_V
  rw [if_pos hall, List.map_map]
  rfl

theorem I_at_V_error_eq {E : ℚ → ℚ} {opts : NewtonOptions}
    {batch : List (ℚ × ModelParameters)} {e : SolverError}
    (h : I_at_V E opts batch = .error e) : e = .ConvergenceError := by
  unfold I_at_V at h
  split at h
  · exact absurd h (by simp)
  · exact (Except.error.inj h).symm

theorem I_at_V_ok_length {E : ℚ → ℚ} {opts : NewtonOptions}
    {batch : List (ℚ × ModelParameters)} {l : List ℚ}
    (h : I_at_V E opts batch = .ok l) : l.length = batch.length := by
  unfold I_at_V at h
  split at h
  · rw [← Except.ok.inj h]; simp
  · exact absurd h (by simp)

theorem V_at_I_error_of_exists {E L : ℚ → ℚ} {opts : NewtonOptions}
    {batch : List (ℚ × ModelParameters)} {ics : List ℚ}
    (hics : mapE (fun p => V_at_I_ic L p.1 p.2) batch = .ok ics)
    (h : ∃ q ∈ batch.zip ics, (V_at_I_element_solve E opts q.1.1 q.1.2 q.2).2 = false) :
    V_at_I E L opts batch = .error .ConvergenceError := by
  obtain ⟨q, hq, hflag⟩ := h
  unfold V_at_I
  split
  · rename_i e heq
    rw [hics] at heq
    exact absurd heq (by simp)
  · rename_i ics1 heq
    rw [hics] at heq
    rw [← Except.ok.inj heq]
    rw [if_neg]
    intro hall
    have := List.all_eq_true.mp hall (V_at_I_element_solve E opts q.1.1 q.1.2 q.2)
      (List.mem_map.mpr ⟨q, hq, rfl⟩)
    rw [hflag] at this
    exact Bool.false_ne_true this

theorem V_at_I_ok_of_all {E L : ℚ → ℚ} {opts : NewtonOptions}
    {batch : List (ℚ × ModelParameters)} {ics : List ℚ}
    (hics : mapE (fun p => V_at_I_ic L p.1 p.2) batch = .ok ics)
    (h : ∀ q ∈ batch.zip ics, (V_at_I_element_solve E opts q.1.1 q.1.2 q.2).2 = true) :
    V_at_I E L opts batch = .ok ((batch.zip ics).map fun q =>
      (V_at_I_element_solve E opts q.1.1 q.1.2 q.2).1) := by
  unfold V_at_I
  split
  · rename_i e heq
    rw [hics] at heq
    exact absurd heq (by simp)
  · rename_i ics1 heq
    rw [hics] at heq
    rw [← Except.ok.inj heq]
    have hall : (((batch.zip ics).map fun q =>
        V_at_I_element_solve E opts q.1.1 q.1.2 q.2).all fun r => r.2) = true :=
      List.all_eq_true.mpr fun r hr => by
        obtain ⟨q, hq, hqr⟩ := List.mem_map.mp hr
        rw [← hqr]
        exact h q hq
    rw [if_pos hall, List.map_map]
    rfl

theorem V_at_I_ok_length {E L : ℚ → ℚ} {opts : NewtonOptions}
    {batch : List (ℚ × ModelParameters)} {l : List ℚ}
    (h : V_at_I E L opts batch = .ok l) : l.length = batch.length := by
  unfold V_at_I at h
  split at h
  · exact absurd h (by simp)
  · rename_i ics heq
    split at h
    · rw [← Except.ok.inj h]
      simp [mapE_ok_length heq]
    · exact absurd h (by simp)

theorem I_at_V_run_error_eq {E : ℚ → ℚ} {opts : NewtonOptions} {V_V : ℚ}
    {mp : ModelParameters} {e : SolverError}
    (h : I_at_V_run E opts V_V mp = .error e) : e = .ConvergenceError := by
  unfold I_at_V_run at h
  split at h
  · exact absurd h (by simp)
  · exact (Except.error.inj h).symm

theorem dP_dV_run_error_eq {E : ℚ → ℚ} {opts : NewtonOptions}
    {mp : ModelParameters} {V_V : ℚ} {e : SolverError}
    (h : dP_dV_run E opts mp V_V = .error e) : e = .ConvergenceError := by
  unfold dP_dV_run dI_dV_at_V_run at h
  split at h
  · rename_i e1 heq
    split at heq
    · rename_i e2 heq2
      exact (Except.error.inj h) ▸ (Except.error.inj heq) ▸ I_at_V_run_error_eq heq2
    · exact absurd heq (by simp)
  · exact absurd h (by simp)

theorem d2P_dV2_run_error_eq {E : ℚ → ℚ} {opts : NewtonOptions}
    {mp : ModelParameters} {V_V : ℚ} {e : SolverError}
    (h : d2P_dV2_run E opts mp V_V = .error e) : e = .ConvergenceError := by
  unfold d2P_dV2_run d2I_dV2_at_V_run at h
  split at h
  · rename_i e1 heq
    split at heq
    · rename_i e2 heq2
      exact (Except.error.inj h) ▸ (Except.error.inj heq) ▸ I_at_V_run_error_eq heq2
    · exact absurd heq (by simp)
  · exact absurd h (by simp)

theorem newtonIterateM_error_eq {f fp : ℚ → Except SolverError ℚ} {tol : ℚ}
    (hf : ∀ x e, f x = .error e → e = .ConvergenceError)
    (hfp : ∀ x e, fp x = .error e → e = .ConvergenceError) :
    ∀ {fuel : Nat} {x : ℚ} {e : SolverError},
      newtonIterateM f fp none tol fuel x = .error e → e = .ConvergenceError := by
  intro fuel
  induction fuel with
  | zero => intro x e h; exact absurd h (by simp [newtonIterateM])
  | succ k ih =>
    intro x e h
    unfold newtonIterateM at h
    split at h
    · rename_i e1 heq
      exact (Except.error.inj h) ▸ hf x e1 heq
    · rename_i fx heq
      split at h
      · exact absurd h (by simp)
      · split at h
        · rename_i e1 heq2
          exact (Except.error.inj h) ▸ hfp x e1 heq2
        · rename_i d heq2
          split at h
          · exact absurd h (by simp)
          · dsimp only at h
            split at h
            · exact absurd h (by simp)
            · exact ih h

/-- C3: for every IVData point and ModelParameters element,
`I_sum_diode_anode_at_I_V` returns exactly
`I_ph - I_rs * (exp(V_diode / n_mod) - 1) - G_p * V_diode - I` with
`V_diode = V + I * R_s` and `n_mod = n * N_s * (k_B * (T_degC + 273.15) / q)`,
where the physical constants have the exact values `k_B = 1.380649e-23 J/K`
and `q = 1.602176634e-19 C`. -/
theorem claim_C3 (E : ℚ → ℚ) (iv : IVData) (mp : ModelParameters) :
    I_sum_diode_anode_at_I_V E iv mp
      = mp.I_ph_A
        - mp.I_rs_A * (E ((iv.V_V + iv.I_A * mp.R_s_Ohm)
            / (mp.n * (mp.N_s * (k_B_J_per_K * (mp.T_degC + 273.15) / q_C)))) - 1)
        - mp.G_p_S * (iv.V_V + iv.I_A * mp.R_s_Ohm) - iv.I_A
    ∧ k_B_J_per_K = 1380649 / 10 ^ 29 ∧ q_C = 1602176634 / 10 ^ 28 := by
  refine ⟨rfl, ?_, ?_⟩
  · norm_num [k_B_J_per_K]
  · norm_num [q_C]

/-- C10: the first-derivative component returned by `d2I_dV2_at_V` agrees
with the one returned by `dI_dV_at_V` on the same voltage batch, parameters
and solver options: the two independent closed-form computations of `dI/dV`
coincide (including the shared root-found current). -/
theorem claim_C10 (E : ℚ → ℚ) (opts : NewtonOptions)
    (batch : List (ℚ × ModelParameters)) :
    (d2I_dV2_at_V E opts batch).map (List.map fun t => (t.2.1, t.2.2))
      = dI_dV_at_V E opts batch := by
  unfold d2I_dV2_at_V dI_dV_at_V
  cases I_at_V E opts batch with
  | error e => rfl
  | ok Is =>
    simp only [Except.map, List.map_map]
    rfl

theorem FloatV_nan_add (x : FloatV) : FloatV.nan + x = FloatV.nan := rfl

theorem FloatV_nan_sub (x : FloatV) : FloatV.nan - x = FloatV.nan := rfl

theorem FloatV_nan_mul (x : FloatV) : FloatV.nan * x = FloatV.nan := rfl

theorem FloatV_nan_div (x : FloatV) : FloatV.nan / x = FloatV.nan := rfl

theorem FloatV_isZero_nan : FloatV.nan.isZero = false := rfl

theorem FloatV_absLe_nan (c : ℚ) : FloatV.nan.absLe c = false := rfl

theorem I_sum_ieee_nan (E0 : ℚ → ℚ) (I_A : ℚ) (mp : ModelParameters) :
    I_sum_ieee E0 I_A mp .nan = .nan := rfl

theorem dI_sum_dV_ieee_nan (E0 : ℚ → ℚ) (I_A : ℚ) (mp : ModelParameters) :
    dI_sum_dV_ieee E0 I_A mp .nan = .nan := rfl

theorem V_at_I_ic_ieee_nan {L0 : ℚ → ℚ} {I_A : ℚ} {mp : ModelParameters}
    (h : mp.I_ph_A + mp.I_rs_A - I_A < 0) :
    V_at_I_ic_ieee L0 I_A mp = .nan := by
  unfold V_at_I_ic_ieee numpy_log_ieee
  rw [if_neg (by linarith)]
  cases hI : (if 0 < mp.I_rs_A then FloatV.fin (L0 mp.I_rs_A) else FloatV.nan) <;> rfl

theorem newtonIterateIEEE_nan {f fp fp2 : FloatV → FloatV} {tol : ℚ}
    (hf : f .nan = .nan) (hfp : fp .nan = .nan) :
    ∀ fuel : Nat, newtonIterateIEEE f fp fp2 tol fuel .nan = (.nan, false) := by
  intro fuel
  induction fuel with
  | zero => rfl
  | succ k ih =>
    unfold newtonIterateIEEE
    rw [hf, hfp]
    simp only [FloatV_isZero_nan, FloatV_nan_mul, FloatV_nan_div, FloatV_nan_sub,
      FloatV_absLe_nan, Bool.false_eq_true, if_false]
    exact ih

/-- C2, settled as a bug in the code.  The claim (and spec sections 4.3 and
7) require `V_at_I` to fail with a `DomainError` before any solver iteration
when some element has `I_ph_A + I_rs_A - I_A ≤ 0`.  The source has no such
error and no such check: `numpy.log` of the non-positive argument only emits
a RuntimeWarning and yields a non-finite initial condition, which flows into
the solver.  This theorem evaluates the code-faithful IEEE model at such
inputs (strictly negative log argument, the `nan` case): the solver runs —
consuming its whole iteration budget on `nan`, whose comparisons are all
false — and the call fails only afterwards, at the post-solve convergence
check, with `ConvergenceError`; a `DomainError` never occurs. -/
theorem claim_C2 (E0 L0 : ℚ → ℚ) (opts : NewtonOptions)
    (batch : List (ℚ × ModelParameters))
    (h : ∃ p ∈ batch, p.2.I_ph_A + p.2.I_rs_A - p.1 < 0) :
    V_at_I_ieee E0 L0 opts batch = .error .ConvergenceError := by
  obtain ⟨p, hp, hlt⟩ := h
  have hsolve : newtonIterateIEEE (I_sum_ieee E0 p.1 p.2)
      (dI_sum_dV_ieee E0 p.1 p.2) (d2I_sum_dV2_ieee E0 p.1 p.2)
      opts.tol opts.maxiter (V_at_I_ic_ieee L0 p.1 p.2) = (.nan, false) := by
    rw [V_at_I_ic_ieee_nan hlt]
    exact newtonIterateIEEE_nan (I_sum_ieee_nan E0 p.1 p.2)
      (dI_sum_dV_ieee_nan E0 p.1 p.2) opts.maxiter
  unfold V_at_I_ieee
  rw [if_neg]
  intro hall
  have := List.all_eq_true.mp hall _ (List.mem_map.mpr ⟨p, hp, rfl⟩)
  rw [hsolve] at this
  exact Bool.false_ne_true this

/-- Witness for C2's failing input: requesting the current `5 A` from a
device with `I_ph_A = 1`, `I_rs_A = 1` (so `1 + 1 - 5 < 0`): the code's
behavior is a `ConvergenceError` after the solve, not a `DomainError` before
it. -/
theorem claim_C2_witness :
    V_at_I_ieee Eone Lzero optsW [((5 : ℚ), mpStar)] = .error .ConvergenceError :=
  claim_C2 Eone Lzero optsW [((5 : ℚ), mpStar)]
    ⟨((5 : ℚ), mpStar), List.mem_singleton.mpr rfl, by norm_num [mpStar]⟩


/-- C6: with `R_s_Ohm = 0` the initial guess of `I_at_V` — the closed form
`I_ph - I_rs * (exp(V / n_mod) - 1) - G_p * V`, which is the initial guess of
every call — already zeroes the residual, so the solver accepts it before any
iteration (for any iteration budget of at least one): the element result is
exactly the closed form with the converged flag set, and the batch call
returns it; this holds for every exponential map, so no error beyond the
evaluation of `exp` itself is incurred. -/
theorem claim_C6 (E : ℚ → ℚ) (opts : NewtonOptions) (V_V : ℚ)
    (mp : ModelParameters) (hR : mp.R_s_Ohm = 0) (hiter : 1 ≤ opts.maxiter) :
    I_at_V_ic E V_V mp
        = mp.I_ph_A - mp.I_rs_A * (E (V_V / n_mod_V mp) - 1) - mp.G_p_S * V_V
    ∧ I_at_V_element E opts V_V mp = (I_at_V_ic E V_V mp, true)
    ∧ I_at_V E opts [(V_V, mp)] = .ok [I_at_V_ic E V_V mp] := by
  have helem : I_at_V_element E opts V_V mp = (I_at_V_ic E V_V mp, true) := by
    have hfx : I_sum_diode_anode_at_I_V E ⟨I_at_V_ic E V_V mp, V_V⟩ mp = 0 := by
      simp only [I_sum_diode_anode_at_I_V, I_at_V_ic, expm1, hR]
      ring_nf
    obtain ⟨k, hk⟩ : ∃ k, opts.maxiter = k + 1 :=
      ⟨opts.maxiter - 1, by omega⟩
    unfold I_at_V_element newtonSolve
    rw [hk]
    unfold newtonIterate
    simp only [hfx]
    rfl
  refine ⟨rfl, helem, ?_⟩
  unfold I_at_V
  simp [helem]

/-- Witness for C6: at `V_V = 0` with the zero-series-resistance element
`mpStar`, one unit of iteration budget, and the constant-1 stand-in for the
exponential, `I_at_V` returns exactly the closed-form initial guess with the
converged flag set. -/
theorem claim_C6_witness :
    I_at_V_ic Eone 0 mpStar
        = mpStar.I_ph_A - mpStar.I_rs_A * (Eone (0 / n_mod_V mpStar) - 1)
          - mpStar.G_p_S * 0
    ∧ I_at_V_element Eone optsW 0 mpStar = (I_at_V_ic Eone 0 mpStar, true)
    ∧ I_at_V Eone optsW [((0 : ℚ), mpStar)] = .ok [I_at_V_ic Eone 0 mpStar] :=
  claim_C6 Eone optsW 0 mpStar rfl (by norm_num [optsW])

/-- C8: `R_at_sc` returns, per element, exactly `-1 / dI_dV_S` where
`dI_dV_S` is the derivative computed by `dI_dV_at_V` at `V_V = 0` (together
with `I_sc_A`), and `R_at_oc` returns exactly `-1 / dI_dV_S` at
`V_V = V_oc_V` with `V_oc_V = V_at_I(I=0)` (together with `V_oc_V`). -/
theorem claim_C8 (E L : ℚ → ℚ) (opts : NewtonOptions)
    (mps : List ModelParameters) :
    (∀ ds, dI_dV_at_V E opts (mps.map fun mp => ((0 : ℚ), mp)) = .ok ds →
        R_at_sc E opts mps = .ok (ds.map fun d => (-1 / d.1, d.2)))
    ∧ (∀ vocs ds, V_at_I E L opts (mps.map fun mp => ((0 : ℚ), mp)) = .ok vocs →
        dI_dV_at_V E opts (vocs.zip mps) = .ok ds →
        R_at_oc E L opts mps = .ok ((ds.zip vocs).map fun q => (-1 / q.1.1, q.2))) := by
  constructor
  · intro ds h
    unfold R_at_sc
    rw [h]
  · intro vocs ds h1 h2
    unfold R_at_oc
    split
    · rename_i e heq
      rw [h1] at heq
      exact absurd heq (by simp)
    · rename_i vocs1 heq
      rw [h1] at heq
      cases Except.ok.inj heq
      split
      · rename_i e heq2
        rw [h2] at heq2
        exact absurd heq2 (by simp)
      · rename_i ds1 heq2
        rw [h2] at heq2
        cases Except.ok.inj heq2
        rfl

/-- Witness for C8: for the degenerate element `mpZero` (with the constant
stand-ins for exp/log and one unit of iteration budget) both resistances
evaluate to the scaled thermal voltage `8232809987 / 320435326800`. -/
theorem claim_C8_witness :
    R_at_sc Eone optsW [mpZero] = .ok [((8232809987 : ℚ) / 320435326800, 0)]
    ∧ R_at_oc Eone Lzero optsW [mpZero]
      = .ok [((8232809987 : ℚ) / 320435326800, 0)] := by
  constructor
  · have h := (claim_C8 Eone Lzero optsW [mpZero]).1
      [(-(320435326800 : ℚ) / 8232809987, 0)]
      (by norm_num [dI_dV_at_V, I_at_V, I_at_V_element, I_at_V_ic, newtonSolve,
        newtonIterate, halleyStep, newtonStep, I_sum_diode_anode_at_I_V, expm1,
        dI_dV_expr, n_mod_V, get_scaled_thermal_voltage, convert_temperature,
        k_B_J_per_K, q_C, Eone, optsW, mpZero, abs_lt, abs_le])
    rw [h]
    norm_num
  · have h := (claim_C8 Eone Lzero optsW [mpZero]).2 [0]
      [(-(320435326800 : ℚ) / 8232809987, 0)]
      (by norm_num [V_at_I, mapE, V_at_I_ic, numpy_log, V_at_I_element_solve,
        newtonSolve, newtonIterate, halleyStep, newtonStep,
        I_sum_diode_anode_at_I_V, expm1, n_mod_V, get_scaled_thermal_voltage,
        convert_temperature, k_B_J_per_K, q_C, Eone, Lzero, optsW, mpZero,
        abs_lt, abs_le])
      (by norm_num [dI_dV_at_V, I_at_V, I_at_V_element, I_at_V_ic, newtonSolve,
        newtonIterate, halleyStep, newtonStep, I_sum_diode_anode_at_I_V, expm1,
        dI_dV_expr, n_mod_V, get_scaled_thermal_voltage, convert_temperature,
        k_B_J_per_K, q_C, Eone, optsW, mpZero, abs_lt, abs_le])
    rw [h]
    norm_num

/-- C5: given that the `I_sc` stage and the `P_mp` stage of `FF` succeed, the
call always succeeds — a zero denominator never raises — and elementwise the
fill-factor component is the not-a-number sentinel exactly where the
denominator `I_sc_A * V_oc_V` is zero, and the quotient
`P_mp_W / (I_sc_A * V_oc_V)` everywhere else. -/
theorem claim_C5 (E L : ℚ → ℚ) (opts : NewtonOptions)
    (mps : List ModelParameters) (Iscs : List ℚ) (pm : List (ℚ × ℚ × ℚ × ℚ))
    (h1 : I_at_V E opts (mps.map fun mp => ((0 : ℚ), mp)) = .ok Iscs)
    (h2 : P_mp E L opts mps = .ok pm) :
    FF E L opts mps = .ok ((Iscs.zip pm).map fun q =>
      (if q.1 * q.2.2.2.2 = 0 then none else some (q.2.1 / (q.1 * q.2.2.2.2)),
       q.1, q.2.2.1, q.2.1, q.2.2.2.1, q.2.2.2.2)) := by
  unfold FF
  split
  · rename_i e heq
    rw [h1] at heq
    exact absurd heq (by simp)
  · rename_i Iscs1 heq
    rw [h1] at heq
    cases Except.ok.inj heq
    split
    · rename_i e heq2
      rw [h2] at heq2
      exact absurd heq2 (by simp)
    · rename_i pm1 heq2
      rw [h2] at heq2
      cases Except.ok.inj heq2
      refine congrArg Except.ok (List.map_congr_left fun q hq => ?_)
      by_cases hd : q.1 * q.2.2.2.2 = 0
      · simp [hd]
      · simp [hd]

/-- Witness for C5: the degenerate element `mpZero` has `I_sc_A = 0` and
`V_oc_V = 0`, so its denominator is exactly zero and the fill factor is the
not-a-number sentinel while the call still succeeds. -/
theorem claim_C5_witness :
    FF Eone Lzero optsW [mpZero] = .ok [(none, 0, 0, 0, 0, 0)] := by
  have h := claim_C5 Eone Lzero optsW [mpZero] [0] [(0, 0, 0, 0)]
    (by norm_num [I_at_V, I_at_V_element, I_at_V_ic, newtonSolve, newtonIterate,
      halleyStep, newtonStep, I_sum_diode_anode_at_I_V, expm1, n_mod_V,
      get_scaled_thermal_voltage, convert_temperature, k_B_J_per_K, q_C,
      Eone, optsW, mpZero, abs_lt, abs_le])
    (by norm_num [P_mp, V_at_I, mapE, V_at_I_ic, numpy_log, V_at_I_element_solve,
      newtonSolve, newtonIterate, newtonIterateM, halleyStep, newtonStep,
      I_sum_diode_anode_at_I_V, expm1, I_at_V, I_at_V_element, I_at_V_ic,
      I_at_V_run, dP_dV_run, d2P_dV2_run, dI_dV_at_V_run, d2I_dV2_at_V_run,
      dI_dV_expr, d2I_dV2_exprs, n_mod_V, get_scaled_thermal_voltage,
      convert_temperature, k_B_J_per_K, q_C, Eone, Lzero, optsW, mpZero,
      abs_lt, abs_le])
  rw [h]
  norm_num

/-- C9: every solver operation is a pure function of the seven field values
of its `ModelParameters` input (together with the other arguments): two calls
on records carrying equal field values produce equal outputs for `I_at_V`,
`V_at_I`, `dI_dV_at_V`, `d2I_dV2_at_V`, `dV_dI_at_I`, `P_at_V`, `P_mp`, `FF`,
`R_at_sc`, `R_at_oc` and `iv_curve_parameters`.  The embedding is state-free
because the source never assigns to `model_parameters` or its entries, so no
mutation of the input is expressible; referential transparency is exactly
this dependence on the field values alone. -/
theorem claim_C9 (E L : ℚ → ℚ) (opts : NewtonOptions) (V_V I_A : ℚ)
    (mp mp' : ModelParameters)
    (h1 : mp.N_s = mp'.N_s) (h2 : mp.T_degC = mp'.T_degC)
    (h3 : mp.I_ph_A = mp'.I_ph_A) (h4 : mp.I_rs_A = mp'.I_rs_A)
    (h5 : mp.n = mp'.n) (h6 : mp.R_s_Ohm = mp'.R_s_Ohm)
    (h7 : mp.G_p_S = mp'.G_p_S) :
    I_at_V E opts [(V_V, mp)] = I_at_V E opts [(V_V, mp')]
    ∧ V_at_I E L opts [(I_A, mp)] = V_at_I E L opts [(I_A, mp')]
    ∧ dI_dV_at_V E opts [(V_V, mp)] = dI_dV_at_V E opts [(V_V, mp')]
    ∧ d2I_dV2_at_V E opts [(V_V, mp)] = d2I_dV2_at_V E opts [(V_V, mp')]
    ∧ dV_dI_at_I E L opts [(I_A, mp)] = dV_dI_at_I E L opts [(I_A, mp')]
    ∧ P_at_V E opts [(V_V, mp)] = P_at_V E opts [(V_V, mp')]
    ∧ P_mp E L opts [mp] = P_mp E L opts [mp']
    ∧ FF E L opts [mp] = FF E L opts [mp']
    ∧ R_at_sc E opts [mp] = R_at_sc E opts [mp']
    ∧ R_at_oc E L opts [mp] = R_at_oc E L opts [mp']
    ∧ iv_curve_parameters E L opts [mp] = iv_curve_parameters E L opts [mp'] := by
  obtain ⟨a1, a2, a3, a4, a5, a6, a7⟩ := mp
  obtain ⟨b1, b2, b3, b4, b5, b6, b7⟩ := mp'
  simp only at h1 h2 h3 h4 h5 h6 h7
  subst h1 h2 h3 h4 h5 h6 h7
  exact ⟨rfl, rfl, rfl, rfl, rfl, rfl, rfl, rfl, rfl, rfl, rfl⟩

/-- Witness for C9: `mpZero` and `mpZero2` are distinct record literals with
equal field values; every operation agrees on them. -/
theorem claim_C9_witness :
    I_at_V Eone optsW [((0 : ℚ), mpZero)] = I_at_V Eone optsW [((0 : ℚ), mpZero2)]
    ∧ V_at_I Eone Lzero optsW [((0 : ℚ), mpZero)]
      = V_at_I Eone Lzero optsW [((0 : ℚ), mpZero2)]
    ∧ dI_dV_at_V Eone optsW [((0 : ℚ), mpZero)]
      = dI_dV_at_V Eone optsW [((0 : ℚ), mpZero2)]
    ∧ d2I_dV2_at_V Eone optsW [((0 : ℚ), mpZero)]
      = d2I_dV2_at_V Eone optsW [((0 : ℚ), mpZero2)]
    ∧ dV_dI_at_I Eone Lzero optsW [((0 : ℚ), mpZero)]
      = dV_dI_at_I Eone Lzero optsW [((0 : ℚ), mpZero2)]
    ∧ P_at_V Eone optsW [((0 : ℚ), mpZero)] = P_at_V Eone optsW [((0 : ℚ), mpZero2)]
    ∧ P_mp Eone Lzero optsW [mpZero] = P_mp Eone Lzero optsW [mpZero2]
    ∧ FF Eone Lzero optsW [mpZero] = FF Eone Lzero optsW [mpZero2]
    ∧ R_at_sc Eone optsW [mpZero] = R_at_sc Eone optsW [mpZero2]
    ∧ R_at_oc Eone Lzero optsW [mpZero] = R_at_oc Eone Lzero optsW [mpZero2]
    ∧ iv_curve_parameters Eone Lzero optsW [mpZero]
      = iv_curve_parameters Eone Lzero optsW [mpZero2] :=
  claim_C9 Eone Lzero optsW 0 0 mpZero mpZero2 rfl rfl rfl rfl rfl rfl rfl

/-- Counterexample to C4 as stated: on the single-element batch `mpStar`
(with the constant stand-ins for exp/log, tolerance 1 and one unit of
iteration budget) the source's `P_mp` — whose outer solve passes no
second-derivative function, so the update is the plain second-order Newton
one — differs from `P_mp_claimed`, the claim's Halley-class (third-order)
iteration supplied with the closed-form power-derivative curves: the two
produce different converged maximum-power points. -/
theorem claim_C4_counterexample :
    P_mp Eone Lzero optsB [mpStar] ≠ P_mp_claimed Eone Lzero optsB [mpStar] := by
  norm_num [P_mp, P_mp_claimed, V_at_I, mapE, V_at_I_ic, numpy_log,
    V_at_I_element_solve, newtonSolve, newtonIterate, newtonIterateM,
    halleyStep, newtonStep, I_sum_diode_anode_at_I_V, expm1, I_at_V,
    I_at_V_element, I_at_V_ic, I_at_V_run, dP_dV_run, d2P_dV2_run,
    d3P_dV3_run, dI_dV_at_V_run, d2I_dV2_at_V_run, dI_dV_expr, d2I_dV2_exprs,
    d3P_dV3_expr, n_mod_V, get_scaled_thermal_voltage, convert_temperature,
    k_B_J_per_K, q_C, Eone, Lzero, optsB, mpStar, abs_lt, abs_le]

/-- C4 (amended): the maximum-power-point search of `P_mp` first computes
`V_oc` via `V_at_I(I=0)`, uses the initial guess `V_mp = 0.75 * V_oc`, and
root-finds `dP/dV = 0` supplying the closed-form first and second derivatives
of power as the function and its first derivative to a second-order Newton
iteration (no second-derivative function is passed, unlike the Halley-class
form used elsewhere), with the strict all-elements convergence requirement,
returning `(P_mp, I_mp, V_mp, V_oc)`: the source agrees with this description
(`P_mp_amended`) on every input. -/
theorem claim_C4 (E L : ℚ → ℚ) (opts : NewtonOptions)
    (mps : List ModelParameters) :
    P_mp E L opts mps = P_mp_amended E L opts mps := by
  have h34 : (fun v : ℚ => 3 / 4 * v) = fun v : ℚ => 0.75 * v := by
    funext v
    norm_num
  unfold P_mp P_mp_amended
  rw [h34]

/-- C1: all-or-nothing batch contract of `I_at_V`, `V_at_I` and `P_mp`.  For
`I_at_V`: if any batch element's solve reports non-convergence the call is
`ConvergenceError`, and if every element converges the call returns the full
array of element roots.  For `V_at_I` (given the initial-condition stage
succeeded) the same two statements hold, and any successful result has the
full batch length.  For `P_mp` (given the `V_oc` stage succeeded): a failure
inside the outer root-find stage yields `ConvergenceError`; an outer
non-convergence of any element yields `ConvergenceError`; a failure of the
final `I_mp` stage yields `ConvergenceError`; and when every element of every
stage converges the call returns the fully assembled array — and any
successful `P_mp` result has the full batch length, so no partial result is
ever returned. -/
theorem claim_C1 (E L : ℚ → ℚ) (opts : NewtonOptions)
    (batchV batchI : List (ℚ × ModelParameters)) (mps : List ModelParameters)
    (ics vocs : List ℚ) :
    ((∃ p ∈ batchV, (I_at_V_element E opts p.1 p.2).2 = false) →
        I_at_V E opts batchV = .error .ConvergenceError)
    ∧ ((∀ p ∈ batchV, (I_at_V_element E opts p.1 p.2).2 = true) →
        I_at_V E opts batchV
          = .ok (batchV.map fun p => (I_at_V_element E opts p.1 p.2).1))
    ∧ (mapE (fun p => V_at_I_ic L p.1 p.2) batchI = .ok ics →
        ((∃ q ∈ batchI.zip ics,
            (V_at_I_element_solve E opts q.1.1 q.1.2 q.2).2 = false) →
          V_at_I E L opts batchI = .error .ConvergenceError)
        ∧ ((∀ q ∈ batchI.zip ics,
            (V_at_I_element_solve E opts q.1.1 q.1.2 q.2).2 = true) →
          V_at_I E L opts batchI = .ok ((batchI.zip ics).map fun q =>
            (V_at_I_element_solve E opts q.1.1 q.1.2 q.2).1)))
    ∧ (∀ l, V_at_I E L opts batchI = .ok l → l.length = batchI.length)
    ∧ (∀ l, P_mp E L opts mps = .ok l → l.length = mps.length)
    ∧ (V_at_I E L opts (mps.map fun mp => ((0 : ℚ), mp)) = .ok vocs →
        (∀ e, mapE (fun q => newtonIterateM (dP_dV_run E opts q.1)
              (d2P_dV2_run E opts q.1) none opts.tol opts.maxiter q.2)
              (mps.zip (vocs.map fun v => 3 / 4 * v)) = .error e →
            P_mp E L opts mps = .error .ConvergenceError)
        ∧ (∀ rs, mapE (fun q => newtonIterateM (dP_dV_run E opts q.1)
              (d2P_dV2_run E opts q.1) none opts.tol opts.maxiter q.2)
              (mps.zip (vocs.map fun v => 3 / 4 * v)) = .ok rs →
            ((∃ r ∈ rs, r.2 = false) →
              P_mp E L opts mps = .error .ConvergenceError)
            ∧ (∀ e, (rs.all fun r => r.2) = true →
                I_at_V E opts ((rs.map fun r => r.1).zip mps) = .error e →
                P_mp E L opts mps = .error .ConvergenceError)
            ∧ ((rs.all fun r => r.2) = true →
              ∀ l3, I_at_V E opts ((rs.map fun r => r.1).zip mps) = .ok l3 →
                P_mp E L opts mps
                  = .ok (((l3.zip (rs.map fun r => r.1)).zip vocs).map
                    fun q => (q.1.1 * q.1.2, q.1.1, q.1.2, q.2))))) := by
  refine ⟨fun h => I_at_V_error_of_exists h,
    fun h => I_at_V_ok_of_all h,
    fun hics => ⟨fun h => V_at_I_error_of_exists hics h,
      fun h => V_at_I_ok_of_all hics h⟩,
    fun l h => V_at_I_ok_length h, ?_, ?_⟩
  · intro l h
    unfold P_mp at h
    split at h
    · exact absurd h (by simp)
    · rename_i vocs1 heq1
      split at h
      · exact absurd h (by simp)
      · rename_i rs1 heq2
        split at h
        · split at h
          · exact absurd h (by simp)
          · rename_i I_mps1 heq3
            rw [← Except.ok.inj h]
            have hv : vocs1.length = mps.length := by
              have := V_at_I_ok_length heq1
              simpa using this
            have hrs : rs1.length = mps.length := by
              have := mapE_ok_length heq2
              rw [List.length_zip, List.length_map, hv] at this
              simpa [min_self] using this
            have hI : I_mps1.length = mps.length := by
              have := I_at_V_ok_length heq3
              rw [List.length_zip, List.length_map, hrs] at this
              simpa [min_self] using this
            simp [List.length_zip, List.length_map, hv, hrs, hI, min_self]
        · exact absurd h (by simp)
  · intro hvocs
    refine ⟨?_, ?_⟩
    · intro e h2
      unfold P_mp
      split
      · rename_i e1 heq
        rw [hvocs] at heq
        exact absurd heq (by simp)
      · rename_i vocs1 heq
        cases Except.ok.inj (hvocs.symm.trans heq)
        split
        · rename_i e1 heq2
          rw [mapE_error_eq (fun a e' he => newtonIterateM_error_eq
            (fun x e'' hx => dP_dV_run_error_eq hx)
            (fun x e'' hx => d2P_dV2_run_error_eq hx) he) heq2]
        · rename_i rs1 heq2
          exact absurd (h2.symm.trans heq2) (by simp)
    · intro rs h2
      refine ⟨?_, ?_, ?_⟩
      · intro hex
        obtain ⟨r, hr, hflag⟩ := hex
        unfold P_mp
        split
        · rename_i e1 heq
          rw [hvocs] at heq
          exact absurd heq (by simp)
        · rename_i vocs1 heq
          cases Except.ok.inj (hvocs.symm.trans heq)
          split
          · rename_i e1 heq2
            exact absurd (h2.symm.trans heq2) (by simp)
          · rename_i rs1 heq2
            cases Except.ok.inj (h2.symm.trans heq2)
            rw [if_neg]
            intro hall
            have := List.all_eq_true.mp hall r hr
            rw [hflag] at this
            exact Bool.false_ne_true this
      · intro e hall h3
        unfold P_mp
        split
        · rename_i e1 heq
          rw [hvocs] at heq
          exact absurd heq (by simp)
        · rename_i vocs1 heq
          cases Except.ok.inj (hvocs.symm.trans heq)
          split
          · rename_i e1 heq2
            exact absurd (h2.symm.trans heq2) (by simp)
          · rename_i rs1 heq2
            cases Except.ok.inj (h2.symm.trans heq2)
            rw [if_pos hall]
            split
            · rename_i e1 heq3
              rw [I_at_V_error_eq heq3]
            · rename_i I1 heq3
              exact absurd (h3.symm.trans heq3) (by simp)
      · intro hall l3 h3
        unfold P_mp
        split
        · rename_i e1 heq
          rw [hvocs] at heq
          exact absurd heq (by simp)
        · rename_i vocs1 heq
          cases Except.ok.inj (hvocs.symm.trans heq)
          split
          · rename_i e1 heq2
            exact absurd (h2.symm.trans heq2) (by simp)
          · rename_i rs1 heq2
            cases Except.ok.inj (h2.symm.trans heq2)
            rw [if_pos hall]
            split
            · rename_i e1 heq3
              exact absurd (h3.symm.trans heq3) (by simp)
            · rename_i I1 heq3
              cases Except.ok.inj (h3.symm.trans heq3)
              rfl

/-- Witness for C1: a non-convergent current element (`mpBad`) makes `I_at_V`
fail with `ConvergenceError`; a convergent one (`mpZero`) yields the full
result; a voltage element whose solve cannot converge in one iteration
(`mpStar`) makes `V_at_I` fail with `ConvergenceError`; and `P_mp` on the
fully convergent `mpZero` returns the assembled quadruple. -/
theorem claim_C1_witness :
    I_at_V Eone optsW [((0 : ℚ), mpBad)] = .error .ConvergenceError
    ∧ I_at_V Eone optsW [((0 : ℚ), mpZero)] = .ok [0]
    ∧ V_at_I Eone Lzero optsW [((0 : ℚ), mpStar)] = .error .ConvergenceError
    ∧ P_mp Eone Lzero optsW [mpZero] = .ok [(0, 0, 0, 0)] := by
  refine ⟨?_, ?_, ?_, ?_⟩
  · exact (claim_C1 Eone Lzero optsW [((0 : ℚ), mpBad)] [] [] [] []).1
      ⟨((0 : ℚ), mpBad), List.mem_singleton.mpr rfl,
        by norm_num [I_at_V_element, I_at_V_ic, newtonSolve, newtonIterate,
          halleyStep, newtonStep, I_sum_diode_anode_at_I_V, expm1, n_mod_V,
          get_scaled_thermal_voltage, convert_temperature, k_B_J_per_K, q_C,
          Eone, optsW, mpBad, abs_lt, abs_le]⟩
  · have h := (claim_C1 Eone Lzero optsW [((0 : ℚ), mpZero)] [] [] [] []).2.1
      (by
        intro p hp
        rw [List.mem_singleton.mp hp]
        norm_num [I_at_V_element, I_at_V_ic, newtonSolve, newtonIterate,
          halleyStep, newtonStep, I_sum_diode_anode_at_I_V, expm1, n_mod_V,
          get_scaled_thermal_voltage, convert_temperature, k_B_J_per_K, q_C,
          Eone, optsW, mpZero, abs_lt, abs_le])
    rw [h]
    norm_num [I_at_V_element, I_at_V_ic, newtonSolve, newtonIterate,
      halleyStep, newtonStep, I_sum_diode_anode_at_I_V, expm1, n_mod_V,
      get_scaled_thermal_voltage, convert_temperature, k_B_J_per_K, q_C,
      Eone, optsW, mpZero, abs_lt, abs_le]
  · exact ((claim_C1 Eone Lzero optsW [] [((0 : ℚ), mpStar)] [] [0] []).2.2.1
      (by norm_num [mapE, V_at_I_ic, numpy_log, n_mod_V,
        get_scaled_thermal_voltage, convert_temperature, k_B_J_per_K, q_C,
        Lzero, mpStar])).1
      ⟨(((0 : ℚ), mpStar), (0 : ℚ)), by simp [List.zip],
        by norm_num [V_at_I_element_solve, newtonSolve, newtonIterate,
          halleyStep, newtonStep, I_sum_diode_anode_at_I_V, expm1, n_mod_V,
          get_scaled_thermal_voltage, convert_temperature, k_B_J_per_K, q_C,
          Eone, optsW, mpStar, abs_lt, abs_le]⟩
  · have hblock := (claim_C1 Eone Lzero optsW [] [] [mpZero] [] [0]).2.2.2.2.2
      (by norm_num [V_at_I, mapE, V_at_I_ic, numpy_log, V_at_I_element_solve,
        newtonSolve, newtonIterate, halleyStep, newtonStep,
        I_sum_diode_anode_at_I_V, expm1, n_mod_V, get_scaled_thermal_voltage,
        convert_temperature, k_B_J_per_K, q_C, Eone, Lzero, optsW, mpZero,
        abs_lt, abs_le])
    have h := (hblock.2 [((0 : ℚ), true)]
        (by norm_num [mapE, newtonIterateM, dP_dV_run, d2P_dV2_run,
          dI_dV_at_V_run, d2I_dV2_at_V_run, I_at_V_run, dI_dV_expr,
          d2I_dV2_exprs, I_at_V_element, I_at_V_ic, newtonSolve, newtonIterate,
          halleyStep, newtonStep, I_sum_diode_anode_at_I_V, expm1, n_mod_V,
          get_scaled_thermal_voltage, convert_temperature, k_B_J_per_K, q_C,
          Eone, optsW, mpZero, abs_lt, abs_le])).2.2
      (by rfl) [0]
      (by norm_num [I_at_V, I_at_V_element, I_at_V_ic, newtonSolve,
        newtonIterate, halleyStep, newtonStep, I_sum_diode_anode_at_I_V, expm1,
        n_mod_V, get_scaled_thermal_voltage, convert_temperature, k_B_J_per_K,
        q_C, Eone, optsW, mpZero, abs_lt, abs_le])
    rw [h]
    norm_num
